import Mathlib

/-!
Shallow embedding of the Figma ghost-frames plugin (src/code.ts) and proofs
about it.  Geometry, paint channels and opacities are modelled as exact
rationals; the host document tree is modelled as an inductive `Node` type;
the per-node try/catch of `processNode` is modelled by threading an error
oracle `fails : String → Bool` (a node whose name the oracle flags raises a
host error while being processed) through the traversal, which returns the
resulting node together with the list of logged error messages.
-/

namespace GhostFrames

/-- An RGB color as read from a solid paint (`color: { r, g, b }`). -/
structure RGB where
  r : ℚ
  g : ℚ
  b : ℚ
deriving DecidableEq, Repr

/-- A paint descriptor: type tag, color channels, opacity. -/
structure Paint where
  type : String
  color : RGB
  opacity : ℚ
deriving DecidableEq, Repr

/-- The compile-time configuration constants of src/code.ts (`CONFIG`). -/
structure Config where
  defaultCornerRadius : ℚ
  defaultOpacity : ℚ
  minOpacity : ℚ
  maxOpacity : ℚ
deriving DecidableEq, Repr

/-- The constant `CONFIG` from src/code.ts lines 4-9. -/
def CONFIG : Config :=
  { defaultCornerRadius := 4
  , defaultOpacity := 0.2
  , minOpacity := 0.1
  , maxOpacity := 0.4 }

/-- The default fill returned by `getTextColor` when no usable fill exists:
`{ type: "SOLID", color: { r: 0, g: 0, b: 0 }, opacity: 1 }` (line 26). -/
def defaultBlackFill : Paint :=
  { type := "SOLID", color := { r := 0, g := 0, b := 0 }, opacity := 1 }

/-- The data of a text node that src/code.ts reads: name, geometry, font
size (`none` models `figma.mixed`, i.e. a non-numeric `fontSize`), character
count, node-level fills (`none` models a non-array / mixed `fills`), and the
styled text segments' fill lists (`none` models a segment whose `fills`
field is missing or not an array). -/
structure TextData where
  name : String
  x : ℚ
  y : ℚ
  width : ℚ
  height : ℚ
  fontSize : Option ℚ
  characters : Nat
  fills : Option (List Paint)
  segments : List (Option (List Paint))
deriving DecidableEq, Repr

/-- The data of a rectangle node that src/code.ts writes when it creates a
ghost. -/
structure RectData where
  name : String
  x : ℚ
  y : ℚ
  width : ℚ
  height : ℚ
  cornerRadius : ℚ
  fills : List Paint
  opacity : ℚ
deriving DecidableEq, Repr

/-- The host document node, as a tagged variant (spec §9): instance, text,
container (frame/group), rectangle, or other childless leaf. -/
inductive Node where
  | text (t : TextData)
  | instanceN (name : String) (children : List Node)
  | frame (name : String) (children : List Node)
  | rect (r : RectData)
  | leaf (name : String)

/-- The name `node.name` of every node variant. -/
def nodeName : Node → String
  | Node.text t => t.name
  | Node.instanceN nm _ => nm
  | Node.frame nm _ => nm
  | Node.rect r => r.name
  | Node.leaf nm => nm

/-- Function `getChildren` (src/code.ts lines 44-49): a snapshot of the node's child
list when it has one, `[]` otherwise. -/
def getChildren : Node → List Node
  | Node.instanceN _ cs => cs
  | Node.frame _ cs => cs
  | _ => []

/-- The `for (const segment of segments)` loop body of `getTextColor`
(lines 18-22): return the fills of the first segment whose fill list is a
non-empty array; `none` if the loop falls through. -/
def firstNonEmptyFills : List (Option (List Paint)) → Option (List Paint)
  | [] => none
  | some fs :: rest =>
      if fs.length > 0 then some fs else firstNonEmptyFills rest
  | none :: rest => firstNonEmptyFills rest

/-- Line 26 of src/code.ts: the text's own fills when they form a non-empty
array, otherwise the default black fill. -/
def nodeFillsOrDefault : Option (List Paint) → List Paint
  | some fs => if fs.length > 0 then fs else [defaultBlackFill]
  | none => [defaultBlackFill]

/-- Function `getTextColor` (src/code.ts lines 12-27).  The `loadFontAsync` host call
carries no data dependency and is omitted. -/
def getTextColor (t : TextData) : List Paint :=
  if t.segments.length > 1 then
    match firstNonEmptyFills t.segments with
    | some fs => fs
    | none => nodeFillsOrDefault t.fills
  else nodeFillsOrDefault t.fills

/-- Function `calculateOpacity` (src/code.ts lines 30-41), as a function of the two
text-node properties it reads: `fontSize` (with `none` for a non-numeric
value, defaulted to 14) and the character count. -/
def calculateOpacity (fontSize : Option ℚ) (characters : Nat) : ℚ :=
  let baseOpacity := CONFIG.defaultOpacity
  let textLength : ℚ := (characters : ℚ)
  let fs : ℚ := match fontSize with
    | some v => v
    | none => 14
  let o1 := baseOpacity * min 1 (max 0.5 (fs / 24))
  let o2 := o1 * min 1 (max 0.7 (textLength / 50))
  min (max o2 CONFIG.minOpacity) CONFIG.maxOpacity

/-- The ghost rectangle built for a text node (src/code.ts lines 79-91). -/
def ghostOf (t : TextData) : RectData :=
  { name := "Ghost_" ++ t.name
  , x := t.x
  , y := t.y
  , width := t.width
  , height := t.height
  , cornerRadius := CONFIG.defaultCornerRadius
  , fills := getTextColor t
  , opacity := calculateOpacity t.fontSize t.characters }

/-- The message logged by the catch clause of `processNode`
(src/code.ts line 110): the error is logged together with the node's name. -/
def errorLog (nm : String) : String :=
  "Error processing node \"" ++ nm ++ "\":"

mutual

/-- Function `processNode` (src/code.ts lines 52-112) with an error oracle: a node
whose name `fails` flags raises a host error while being processed; the
node-level try/catch catches it, logs it with the node's name, and returns
normally, leaving the node in place.  On success: an instance is detached
into a frame whose children are then each processed (the frame itself is
not re-processed); a text node is replaced by its ghost rectangle; a
container keeps its identity and processes a snapshot of its children in
order; other leaves are no-ops.  Returns the node that now occupies the
processed node's slot, together with the logged error messages. -/
def processNodeE (fails : String → Bool) : Node → Node × List String
  | Node.text t =>
      if fails t.name then (Node.text t, [errorLog t.name])
      else (Node.rect (ghostOf t), [])
  | Node.instanceN nm cs =>
      if fails nm then (Node.instanceN nm cs, [errorLog nm])
      else
        let r := processChildrenE fails cs
        (Node.frame nm r.1, r.2)
  | Node.frame nm cs =>
      if fails nm then (Node.frame nm cs, [errorLog nm])
      else
        let r := processChildrenE fails cs
        (Node.frame nm r.1, r.2)
  | Node.rect r =>
      if fails r.name then (Node.rect r, [errorLog r.name])
      else (Node.rect r, [])
  | Node.leaf nm =>
      if fails nm then (Node.leaf nm, [errorLog nm])
      else (Node.leaf nm, [])

/-- The `for (const child of children) await processNode(child)` loops of
src/code.ts (lines 70-72 and 106-108): process a snapshot of a child list
in order, collecting each child's result and the concatenated logs. -/
def processChildrenE (fails : String → Bool) : List Node → List Node × List String
  | [] => ([], [])
  | c :: cs =>
      let r := processNodeE fails c
      let rs := processChildrenE fails cs
      (r.1 :: rs.1, r.2 ++ rs.2)

end

/-- Function `processNode` in the error-free run: the node that replaces the given
node at its slot in the parent. -/
def processNode (n : Node) : Node :=
  (processNodeE (fun _ => false) n).1

/-- Host capability `parent.insertChild(index, node)` (src reference: src/code.ts
line 96): insert a node at the given index of a child sequence. -/
def insertAt : List Node → Nat → Node → List Node
  | cs, 0, g => g :: cs
  | [], _ + 1, g => [g]
  | c :: cs, i + 1, g => c :: insertAt cs i g

/-- Host capability `node.remove()` at a known index (src reference: src/code.ts
line 100): remove the child at the given index of a child sequence. -/
def removeAt : List Node → Nat → List Node
  | [], _ => []
  | _ :: cs, 0 => cs
  | c :: cs, i + 1 => c :: removeAt cs i

/-- The hierarchy maintenance of the text branch (src/code.ts lines 94-100):
insert the ghost at the text node's index, then remove the original text
node, which now sits one slot further right. -/
def replaceWithGhostAt (cs : List Node) (i : Nat) (g : Node) : List Node :=
  removeAt (insertAt cs i g) (i + 1)

/-- Host `detachInstance` capability as the spec describes it (§4.1): it
destroys the instance at index `i` and inserts the replacement container at
the same index. -/
def detachInstanceAt (cs : List Node) (i : Nat) (repl : Node) : List Node :=
  insertAt (removeAt cs i) i repl

/-- The notification shown on an empty selection (src/code.ts line 120). -/
def guidanceMessage : String :=
  "Please select at least one frame or element"

/-- The notification shown after a successful run (src/code.ts line 130). -/
def successMessage : String :=
  "Successfully converted text to ghost frames! 👻"

/-- The notification shown by the run-level catch (src/code.ts line 133). -/
def failureMessage : String :=
  "An error occurred while processing"

/-- Observable outcome of one plugin run: the selection roots after the
run, the notification emitted, and whether the session was terminated. -/
structure MainResult where
  selectionAfter : List Node
  notification : String
  closed : Bool

/-- The main IIFE (src/code.ts lines 115-137): on an empty selection,
notify with guidance and close without touching the tree; otherwise process
each selected root in order, notify success, and close. -/
def mainRun (fails : String → Bool) (selection : List Node) : MainResult :=
  if selection.length = 0 then
    { selectionAfter := selection, notification := guidanceMessage, closed := true }
  else
    { selectionAfter := selection.map (fun n => (processNodeE fails n).1)
    , notification := successMessage
    , closed := true }

/-- The function `clamp(x, lo, hi)` as the spec's opacity formula uses it. -/
def clamp (x lo hi : ℚ) : ℚ :=
  min hi (max lo x)

/-- The spec's reference opacity formula (spec §4.2 / claim C3):
`clamp(0.2 * clamp(fontSize/24, 0.5, 1.0) * clamp(characterCount/50, 0.7, 1.0), 0.1, 0.4)`,
with a non-numeric font size treated as 14. -/
def opacitySpec (fontSize : Option ℚ) (characters : Nat) : ℚ :=
  let fs : ℚ := match fontSize with
    | some v => v
    | none => 14
  clamp (0.2 * clamp (fs / 24) 0.5 1 * clamp ((characters : ℚ) / 50) 0.7 1) 0.1 0.4

/-! ### Helper lemmas about the opacity clamps -/

lemma clamp_eq_code (x lo hi : ℚ) : min (max x lo) hi = clamp x lo hi := by
  rw [clamp, min_comm, max_comm]

lemma calculateOpacity_some_eq (v : ℚ) (cc : Nat) :
    calculateOpacity (some v) cc =
      min (max (CONFIG.defaultOpacity * min 1 (max 0.5 (v / 24))
        * min 1 (max 0.7 ((cc : ℚ) / 50))) CONFIG.minOpacity) CONFIG.maxOpacity := rfl

lemma calculateOpacity_none_eq (cc : Nat) :
    calculateOpacity none cc = calculateOpacity (some 14) cc := rfl

lemma innerClamp_nonneg (lo x : ℚ) (h : 0 ≤ lo) : 0 ≤ min 1 (max lo x) :=
  le_min (by norm_num) (le_trans h (le_max_left lo x))

lemma innerClamp_le_one (lo x : ℚ) : min 1 (max lo x) ≤ 1 :=
  min_le_left 1 (max lo x)

lemma innerClamp_mono (lo x y : ℚ) (h : x ≤ y) :
    min 1 (max lo x) ≤ min 1 (max lo y) :=
  min_le_min le_rfl (max_le_max le_rfl h)

/-! ### C3 -/

/-- C3: `calculateOpacity` coincides with the spec's reference formula
`clamp(0.2 * clamp(fontSize/24, 0.5, 1.0) * clamp(characterCount/50, 0.7, 1.0), 0.1, 0.4)`
on every input, and in particular it returns exactly 0.2 at
(fontSize 24, characterCount 50) and exactly 0.1 at
(fontSize 12, characterCount 25). -/
theorem calculateOpacity_matches_reference :
    (∀ (fs : Option ℚ) (cc : Nat), calculateOpacity fs cc = opacitySpec fs cc)
    ∧ calculateOpacity (some 24) 50 = 0.2
    ∧ calculateOpacity (some 12) 25 = 0.1 := by
  refine ⟨fun fs cc => ?_, ?_, ?_⟩
  · cases fs with
    | none => exact clamp_eq_code _ _ _
    | some v => exact clamp_eq_code _ _ _
  · rw [calculateOpacity_some_eq]
    norm_num [CONFIG]
  · rw [calculateOpacity_some_eq]
    norm_num [CONFIG]

/-! ### C4 -/

/-- C4: for every font size (any rational, hence in particular every
non-negative one, and also the non-numeric case `none`) and every character
count, `calculateOpacity` lands in the closed interval [0.1, 0.4]; the
non-numeric font size is treated exactly as 14. -/
theorem calculateOpacity_bounded :
    (∀ (fs : Option ℚ) (cc : Nat),
      0.1 ≤ calculateOpacity fs cc ∧ calculateOpacity fs cc ≤ 0.4)
    ∧ (∀ cc : Nat, calculateOpacity none cc = calculateOpacity (some 14) cc) := by
  constructor
  · intro fs cc
    have key : ∀ v : ℚ,
        0.1 ≤ calculateOpacity (some v) cc ∧ calculateOpacity (some v) cc ≤ 0.4 := by
      intro v
      rw [calculateOpacity_some_eq]
      constructor
      · exact le_min (le_max_right _ _) (by norm_num [CONFIG])
      · exact min_le_right _ _
    cases fs with
    | none => exact calculateOpacity_none_eq cc ▸ key 14
    | some v => exact key v
  · exact fun cc => calculateOpacity_none_eq cc

/-! ### C10 -/

/-- C10: for every character count and every font size (numeric or not),
`calculateOpacity` never exceeds the 0.2 base opacity, so its value always
lies in [0.1, 0.2] and the configured 0.4 ceiling is never attained. -/
theorem calculateOpacity_le_base :
    ∀ (fs : Option ℚ) (cc : Nat),
      0.1 ≤ calculateOpacity fs cc ∧ calculateOpacity fs cc ≤ 0.2 := by
  intro fs cc
  have key : ∀ v : ℚ,
      0.1 ≤ calculateOpacity (some v) cc ∧ calculateOpacity (some v) cc ≤ 0.2 := by
    intro v
    rw [calculateOpacity_some_eq]
    have hA0 : (0 : ℚ) ≤ min 1 (max 0.5 (v / 24)) := innerClamp_nonneg _ _ (by norm_num)
    have hA1 : min 1 (max 0.5 (v / 24)) ≤ 1 := innerClamp_le_one _ _
    have hB1 : min 1 (max 0.7 ((cc : ℚ) / 50)) ≤ 1 := innerClamp_le_one _ _
    have ho : CONFIG.defaultOpacity * min 1 (max 0.5 (v / 24))
        * min 1 (max 0.7 ((cc : ℚ) / 50)) ≤ 0.2 := by
      have h1 : CONFIG.defaultOpacity * min 1 (max 0.5 (v / 24))
          * min 1 (max 0.7 ((cc : ℚ) / 50))
          ≤ CONFIG.defaultOpacity * min 1 (max 0.5 (v / 24)) :=
        mul_le_of_le_one_right (mul_nonneg (by norm_num [CONFIG]) hA0) hB1
      have h2 : CONFIG.defaultOpacity * min 1 (max 0.5 (v / 24)) ≤ 0.2 := by
        calc CONFIG.defaultOpacity * min 1 (max 0.5 (v / 24))
            ≤ CONFIG.defaultOpacity := mul_le_of_le_one_right (by norm_num [CONFIG]) hA1
          _ = 0.2 := by norm_num [CONFIG]
      exact le_trans h1 h2
    constructor
    · exact le_min (le_max_right _ _) (by norm_num [CONFIG])
    · exact min_le_of_left_le (max_le ho (by norm_num [CONFIG]))
  cases fs with
  | none => exact calculateOpacity_none_eq cc ▸ key 14
  | some v => exact key v

/-! ### C5 -/

/-- C5: `calculateOpacity` is monotone non-decreasing in the font size for
every fixed character count, and monotone non-decreasing in the character
count for every fixed font size, over the non-negative inputs. -/
theorem calculateOpacity_monotone :
    (∀ (v w : ℚ) (cc : Nat), 0 ≤ v → v ≤ w →
      calculateOpacity (some v) cc ≤ calculateOpacity (some w) cc)
    ∧ (∀ (v : ℚ) (cc dd : Nat), 0 ≤ v → cc ≤ dd →
      calculateOpacity (some v) cc ≤ calculateOpacity (some v) dd) := by
  constructor
  · intro v w cc _ hvw
    rw [calculateOpacity_some_eq, calculateOpacity_some_eq]
    have hB0 : (0 : ℚ) ≤ min 1 (max 0.7 ((cc : ℚ) / 50)) :=
      innerClamp_nonneg _ _ (by norm_num)
    have hA : min 1 (max 0.5 (v / 24)) ≤ min 1 (max 0.5 (w / 24)) :=
      innerClamp_mono _ _ _ (by gcongr)
    have ho : CONFIG.defaultOpacity * min 1 (max 0.5 (v / 24))
        * min 1 (max 0.7 ((cc : ℚ) / 50))
        ≤ CONFIG.defaultOpacity * min 1 (max 0.5 (w / 24))
        * min 1 (max 0.7 ((cc : ℚ) / 50)) :=
      mul_le_mul_of_nonneg_right
        (mul_le_mul_of_nonneg_left hA (by norm_num [CONFIG])) hB0
    exact min_le_min (max_le_max ho le_rfl) le_rfl
  · intro v cc dd _ hcd
    rw [calculateOpacity_some_eq, calculateOpacity_some_eq]
    have hA0 : (0 : ℚ) ≤ min 1 (max 0.5 (v / 24)) :=
      innerClamp_nonneg _ _ (by norm_num)
    have hB : min 1 (max 0.7 ((cc : ℚ) / 50)) ≤ min 1 (max 0.7 ((dd : ℚ) / 50)) := by
      refine innerClamp_mono _ _ _ ?_
      gcongr
    have ho : CONFIG.defaultOpacity * min 1 (max 0.5 (v / 24))
        * min 1 (max 0.7 ((cc : ℚ) / 50))
        ≤ CONFIG.defaultOpacity * min 1 (max 0.5 (v / 24))
        * min 1 (max 0.7 ((dd : ℚ) / 50)) :=
      mul_le_mul_of_nonneg_left hB (mul_nonneg (by norm_num [CONFIG]) hA0)
    exact min_le_min (max_le_max ho le_rfl) le_rfl

/-- Witness for C5: the monotonicity theorem applied at concrete inputs
(12 ≤ 24 for the font size; 25 ≤ 50 for the character count). -/
theorem calculateOpacity_monotone_witness :
    calculateOpacity (some 12) 25 ≤ calculateOpacity (some 24) 25
    ∧ calculateOpacity (some 24) 25 ≤ calculateOpacity (some 24) 50 :=
  ⟨calculateOpacity_monotone.1 12 24 25 (by norm_num) (by norm_num),
   calculateOpacity_monotone.2 24 25 50 (by norm_num) (by norm_num)⟩

/-! ### Helper lemmas about color extraction -/

lemma firstNonEmptyFills_eq_of_first (segs : List (Option (List Paint)))
    (j : Nat) (fs : List Paint)
    (hj : segs[j]? = some (some fs)) (hfs : fs ≠ [])
    (hbefore : ∀ s ∈ segs.take j, s = none ∨ s = some []) :
    firstNonEmptyFills segs = some fs := by
  induction segs generalizing j with
  | nil => simp at hj
  | cons s rest ih =>
    cases j with
    | zero =>
      simp at hj
      subst hj
      simp [firstNonEmptyFills, List.length_pos, hfs]
    | succ j =>
      have hs : s = none ∨ s = some [] := hbefore s (by simp)
      have hrest : ∀ u ∈ rest.take j, u = none ∨ u = some [] := by
        intro u hu
        exact hbefore u (by simp [hu])
      rcases hs with hs | hs <;> subst hs
      · exact ih j (by simpa using hj) hrest
      · simpa [firstNonEmptyFills] using ih j (by simpa using hj) hrest

lemma firstNonEmptyFills_eq_none (segs : List (Option (List Paint)))
    (h : ∀ s ∈ segs, s = none ∨ s = some []) :
    firstNonEmptyFills segs = none := by
  induction segs with
  | nil => rfl
  | cons s rest ih =>
    have hs : s = none ∨ s = some [] := h s (by simp)
    have hrest := ih fun u hu => h u (by simp [hu])
    rcases hs with hs | hs <;> subst hs
    · simpa [firstNonEmptyFills] using hrest
    · simpa [firstNonEmptyFills] using hrest

/-! ### C6 -/

/-- C6: `getTextColor` returns (a) for a node with more than one styled
segment, the fills of the first segment in order whose fill list is a
non-empty array; (b) for a node with a single segment and a single uniform
fill, exactly the node's own one-element fill list; and (c) when no usable
fill exists anywhere (all segments empty or non-array, node fills empty or
non-array), exactly the single default opaque black fill. -/
theorem getTextColor_spec :
    (∀ (t : TextData) (j : Nat) (fs : List Paint),
      t.segments.length > 1 →
      t.segments[j]? = some (some fs) → fs ≠ [] →
      (∀ s ∈ t.segments.take j, s = none ∨ s = some []) →
      getTextColor t = fs)
    ∧ (∀ (t : TextData) (p : Paint),
      t.segments.length ≤ 1 → t.fills = some [p] →
      getTextColor t = [p])
    ∧ (∀ t : TextData,
      (∀ s ∈ t.segments, s = none ∨ s = some []) →
      (t.fills = none ∨ t.fills = some []) →
      getTextColor t = [defaultBlackFill]) := by
  refine ⟨?_, ?_, ?_⟩
  · intro t j fs hlen hj hfs hbefore
    rw [getTextColor, if_pos hlen, firstNonEmptyFills_eq_of_first t.segments j fs hj hfs hbefore]
  · intro t p hlen hfills
    rw [getTextColor, if_neg (by omega), hfills]
    rfl
  · intro t hsegs hfills
    rw [getTextColor]
    have hfd : nodeFillsOrDefault t.fills = [defaultBlackFill] := by
      rcases hfills with hf | hf <;> rw [hf] <;> rfl
    by_cases hlen : t.segments.length > 1
    · rw [if_pos hlen, firstNonEmptyFills_eq_none t.segments hsegs, hfd]
    · rw [if_neg hlen, hfd]

/-- A sample red paint used by the concrete color-extraction instances. -/
def redFill : Paint :=
  { type := "SOLID", color := { r := 1, g := 0, b := 0 }, opacity := 1 }

/-- A sample blue paint used by the concrete color-extraction instances. -/
def blueFill : Paint :=
  { type := "SOLID", color := { r := 0, g := 0, b := 1 }, opacity := 1 }

/-- A text node with two styled segments, the first empty and the second
red (spec's mixed-fill example). -/
def mixedSegmentText : TextData :=
  { name := "mixed", x := 0, y := 0, width := 100, height := 20
  , fontSize := some 16, characters := 10
  , fills := none
  , segments := [some [], some [redFill]] }

/-- A text node with a single segment and a single uniform blue fill. -/
def uniformFillText : TextData :=
  { name := "uniform", x := 0, y := 0, width := 100, height := 20
  , fontSize := some 16, characters := 10
  , fills := some [blueFill]
  , segments := [some [blueFill]] }

/-- A text node with no valid segments and no usable node-level fills. -/
def noFillText : TextData :=
  { name := "bare", x := 0, y := 0, width := 100, height := 20
  , fontSize := some 16, characters := 10
  , fills := none
  , segments := [] }

/-- Witness for C6: the three branches of the color-extraction theorem
evaluated at the spec's concrete examples. -/
theorem getTextColor_spec_witness :
    getTextColor mixedSegmentText = [redFill]
    ∧ getTextColor uniformFillText = [blueFill]
    ∧ getTextColor noFillText = [defaultBlackFill] :=
  ⟨getTextColor_spec.1 mixedSegmentText 1 [redFill] (by decide) rfl (by decide) (by decide),
   getTextColor_spec.2.1 uniformFillText blueFill (by decide) rfl,
   getTextColor_spec.2.2 noFillText (by decide) (Or.inl rfl)⟩

/-! ### C7 -/

/-- C7: when a text node has more than one styled segment and none of them
has a non-empty fill array, `getTextColor` falls back to the node's own
top-level fills when they form a non-empty array, and only otherwise to the
default black fill. -/
theorem getTextColor_multiSegment_fallback :
    ∀ t : TextData,
      t.segments.length > 1 →
      (∀ s ∈ t.segments, s = none ∨ s = some []) →
      getTextColor t = nodeFillsOrDefault t.fills
      ∧ (∀ fs : List Paint, t.fills = some fs → fs ≠ [] → getTextColor t = fs)
      ∧ ((t.fills = none ∨ t.fills = some []) → getTextColor t = [defaultBlackFill]) := by
  intro t hlen hsegs
  have hmain : getTextColor t = nodeFillsOrDefault t.fills := by
    rw [getTextColor, if_pos hlen, firstNonEmptyFills_eq_none t.segments hsegs]
  refine ⟨hmain, ?_, ?_⟩
  · intro fs hf hne
    rw [hmain, hf, nodeFillsOrDefault, if_pos (List.length_pos.mpr hne)]
  · intro hf
    rcases hf with hf | hf <;> rw [hmain, hf] <;> rfl

/-- A text node with two segments, both without usable fills, and a
non-empty node-level blue fill. -/
def allEmptySegmentsText : TextData :=
  { name := "fallback", x := 0, y := 0, width := 100, height := 20
  , fontSize := some 16, characters := 10
  , fills := some [blueFill]
  , segments := [none, some []] }

/-- A text node with two segments, both without usable fills, and no
usable node-level fills either. -/
def allEmptyNoFillsText : TextData :=
  { name := "fallback2", x := 0, y := 0, width := 100, height := 20
  , fontSize := some 16, characters := 10
  , fills := some []
  , segments := [none, some []] }

/-- Witness for C7: the fallback theorem evaluated at a multi-segment
node with all-empty segments, once with usable node fills and once
without. -/
theorem getTextColor_multiSegment_fallback_witness :
    getTextColor allEmptySegmentsText = [blueFill]
    ∧ getTextColor allEmptyNoFillsText = [defaultBlackFill] :=
  ⟨(getTextColor_multiSegment_fallback allEmptySegmentsText (by decide) (by decide)).2.1
      [blueFill] rfl (by decide),
   (getTextColor_multiSegment_fallback allEmptyNoFillsText (by decide) (by decide)).2.2
      (Or.inr rfl)⟩

/-! ### Helper lemmas about the traversal and the child-list operations -/

lemma processChildrenE_fst (fails : String → Bool) (cs : List Node) :
    (processChildrenE fails cs).1 = cs.map fun c => (processNodeE fails c).1 := by
  induction cs with
  | nil => rfl
  | cons c cs ih => simp [processChildrenE, ih]

lemma processNode_text (t : TextData) :
    processNode (Node.text t) = Node.rect (ghostOf t) := rfl

lemma processNode_instanceN (nm : String) (cs : List Node) :
    processNode (Node.instanceN nm cs) = Node.frame nm (cs.map processNode) := by
  show (processNodeE (fun _ => false) (Node.instanceN nm cs)).1 = _
  simp [processNodeE, processChildrenE_fst, processNode]

lemma processNode_frame (nm : String) (cs : List Node) :
    processNode (Node.frame nm cs) = Node.frame nm (cs.map processNode) := by
  show (processNodeE (fun _ => false) (Node.frame nm cs)).1 = _
  simp [processNodeE, processChildrenE_fst, processNode]

lemma replaceWithGhostAt_eq_set (cs : List Node) (i : Nat) (g : Node)
    (h : i < cs.length) :
    replaceWithGhostAt cs i g = cs.set i g := by
  induction cs generalizing i with
  | nil => simp at h
  | cons c cs ih =>
    cases i with
    | zero => rfl
    | succ i =>
      have hi : i < cs.length := by simpa using h
      show c :: removeAt (insertAt cs i g) (i + 1) = c :: cs.set i g
      rw [show removeAt (insertAt cs i g) (i + 1) = replaceWithGhostAt cs i g from rfl,
        ih i hi]

lemma insertAt_zero (cs : List Node) (g : Node) : insertAt cs 0 g = g :: cs := by
  cases cs <;> rfl

lemma detachInstanceAt_eq_set (cs : List Node) (i : Nat) (r : Node)
    (h : i < cs.length) :
    detachInstanceAt cs i r = cs.set i r := by
  induction cs generalizing i with
  | nil => simp at h
  | cons c cs ih =>
    cases i with
    | zero =>
      show insertAt cs 0 r = (c :: cs).set 0 r
      rw [insertAt_zero]
      rfl
    | succ i =>
      have hi : i < cs.length := by simpa using h
      show c :: insertAt (removeAt cs i) i r = c :: cs.set i r
      rw [show insertAt (removeAt cs i) i r = detachInstanceAt cs i r from rfl, ih i hi]

lemma length_of_getElem? {cs : List Node} {i : Nat} {n : Node}
    (h : cs[i]? = some n) : i < cs.length :=
  (List.getElem?_eq_some_iff.mp h).1

/-! ### C1 -/

/-- C1: `processNode` on a text node (with a parent) replaces it with a
ghost rectangle carrying the text node's exact geometry, the name
`"Ghost_" + name`, corner radius 4, the extracted text color as fills and
the computed opacity; inserting the ghost at the text node's index `i` and
then removing the text node leaves the ghost at index `i` and every other
sibling at its former position. -/
theorem processNode_text_spec (t : TextData) (cs : List Node) (i : Nat)
    (h : cs[i]? = some (Node.text t)) :
    processNode (Node.text t) = Node.rect (ghostOf t)
    ∧ (ghostOf t).name = "Ghost_" ++ t.name
    ∧ (ghostOf t).width = t.width
    ∧ (ghostOf t).height = t.height
    ∧ (ghostOf t).x = t.x
    ∧ (ghostOf t).y = t.y
    ∧ (ghostOf t).cornerRadius = 4
    ∧ (ghostOf t).fills = getTextColor t
    ∧ (ghostOf t).opacity = calculateOpacity t.fontSize t.characters
    ∧ replaceWithGhostAt cs i (Node.rect (ghostOf t)) = cs.set i (Node.rect (ghostOf t))
    ∧ (replaceWithGhostAt cs i (Node.rect (ghostOf t)))[i]? = some (Node.rect (ghostOf t))
    ∧ ∀ j : Nat, j ≠ i →
        (replaceWithGhostAt cs i (Node.rect (ghostOf t)))[j]? = cs[j]? := by
  have hlen : i < cs.length := length_of_getElem? h
  have hset := replaceWithGhostAt_eq_set cs i (Node.rect (ghostOf t)) hlen
  refine ⟨rfl, rfl, rfl, rfl, rfl, rfl, rfl, rfl, rfl, hset, ?_, ?_⟩
  · rw [hset]
    exact List.getElem?_set_self (by simpa using hlen)
  · intro j hj
    rw [hset]
    exact List.getElem?_set_ne (Ne.symm hj)

/-- A sample text node used to instantiate the structural theorems. -/
def sampleText : TextData :=
  { name := "Title", x := 3, y := 5, width := 120, height := 24
  , fontSize := some 24, characters := 50
  , fills := some [blueFill]
  , segments := [some [blueFill]] }

/-- Witness for C1: the text-replacement theorem applied to a concrete
child list holding a leaf, the sample text node and another leaf, with
every evaluation carried out on those concrete values. -/
theorem processNode_text_spec_witness :
    processNode (Node.text sampleText) = Node.rect (ghostOf sampleText)
    ∧ (ghostOf sampleText).name = "Ghost_" ++ sampleText.name
    ∧ (ghostOf sampleText).width = sampleText.width
    ∧ (ghostOf sampleText).height = sampleText.height
    ∧ (ghostOf sampleText).x = sampleText.x
    ∧ (ghostOf sampleText).y = sampleText.y
    ∧ (ghostOf sampleText).cornerRadius = 4
    ∧ (ghostOf sampleText).fills = getTextColor sampleText
    ∧ (ghostOf sampleText).opacity = calculateOpacity sampleText.fontSize sampleText.characters
    ∧ replaceWithGhostAt [Node.leaf "a", Node.text sampleText, Node.leaf "b"] 1
        (Node.rect (ghostOf sampleText))
      = [Node.leaf "a", Node.text sampleText, Node.leaf "b"].set 1
          (Node.rect (ghostOf sampleText))
    ∧ (replaceWithGhostAt [Node.leaf "a", Node.text sampleText, Node.leaf "b"] 1
        (Node.rect (ghostOf sampleText)))[1]? = some (Node.rect (ghostOf sampleText))
    ∧ ∀ j : Nat, j ≠ 1 →
        (replaceWithGhostAt [Node.leaf "a", Node.text sampleText, Node.leaf "b"] 1
          (Node.rect (ghostOf sampleText)))[j]?
        = [Node.leaf "a", Node.text sampleText, Node.leaf "b"][j]? :=
  processNode_text_spec sampleText
    [Node.leaf "a", Node.text sampleText, Node.leaf "b"] 1 rfl

/-! ### C2 -/

/-- C2: `processNode` on an instance node (with a parent) detaches it: the
host detach destroys the instance at its recorded index `i` and places the
replacement frame there, re-reading index `i` yields that frame, every
other sibling keeps its position, and the traversal then processes exactly
the frame's immediate children in order — never the frame itself — so a
text child at position `j` of the replacement ends up as its ghost at the
same position `j`. -/
theorem processNode_instance_spec (nm : String) (ics cs : List Node) (i : Nat)
    (h : cs[i]? = some (Node.instanceN nm ics)) :
    detachInstanceAt cs i (Node.frame nm ics) = cs.set i (Node.frame nm ics)
    ∧ (detachInstanceAt cs i (Node.frame nm ics))[i]? = some (Node.frame nm ics)
    ∧ (∀ j : Nat, j ≠ i →
        (detachInstanceAt cs i (Node.frame nm ics))[j]? = cs[j]?)
    ∧ processNode (Node.instanceN nm ics) = Node.frame nm (ics.map processNode)
    ∧ getChildren (Node.frame nm ics) = ics
    ∧ (∀ (j : Nat) (u : TextData), ics[j]? = some (Node.text u) →
        (ics.map processNode)[j]? = some (Node.rect (ghostOf u))) := by
  have hlen : i < cs.length := length_of_getElem? h
  have hset := detachInstanceAt_eq_set cs i (Node.frame nm ics) hlen
  refine ⟨hset, ?_, ?_, processNode_instanceN nm ics, rfl, ?_⟩
  · rw [hset]
    exact List.getElem?_set_self (by simpa using hlen)
  · intro j hj
    rw [hset]
    exact List.getElem?_set_ne (Ne.symm hj)
  · intro j u hu
    rw [List.getElem?_map, hu]
    rfl

/-- Witness for C2: the instance-detachment theorem applied to a concrete
selection whose instance child holds a text node and a leaf. -/
theorem processNode_instance_spec_witness :
    detachInstanceAt
      [Node.instanceN "Card" [Node.text sampleText, Node.leaf "icon"], Node.leaf "b"] 0
      (Node.frame "Card" [Node.text sampleText, Node.leaf "icon"])
      = [Node.instanceN "Card" [Node.text sampleText, Node.leaf "icon"], Node.leaf "b"].set 0
          (Node.frame "Card" [Node.text sampleText, Node.leaf "icon"])
    ∧ (detachInstanceAt
        [Node.instanceN "Card" [Node.text sampleText, Node.leaf "icon"], Node.leaf "b"] 0
        (Node.frame "Card" [Node.text sampleText, Node.leaf "icon"]))[0]?
      = some (Node.frame "Card" [Node.text sampleText, Node.leaf "icon"])
    ∧ (∀ j : Nat, j ≠ 0 →
        (detachInstanceAt
          [Node.instanceN "Card" [Node.text sampleText, Node.leaf "icon"], Node.leaf "b"] 0
          (Node.frame "Card" [Node.text sampleText, Node.leaf "icon"]))[j]?
        = [Node.instanceN "Card" [Node.text sampleText, Node.leaf "icon"], Node.leaf "b"][j]?)
    ∧ processNode (Node.instanceN "Card" [Node.text sampleText, Node.leaf "icon"])
      = Node.frame "Card" ([Node.text sampleText, Node.leaf "icon"].map processNode)
    ∧ getChildren (Node.frame "Card" [Node.text sampleText, Node.leaf "icon"])
      = [Node.text sampleText, Node.leaf "icon"]
    ∧ (∀ (j : Nat) (u : TextData),
        [Node.text sampleText, Node.leaf "icon"][j]? = some (Node.text u) →
        ([Node.text sampleText, Node.leaf "icon"].map processNode)[j]?
        = some (Node.rect (ghostOf u))) :=
  processNode_instance_spec "Card" [Node.text sampleText, Node.leaf "icon"]
    [Node.instanceN "Card" [Node.text sampleText, Node.leaf "icon"], Node.leaf "b"] 0 rfl

/-! ### C8 -/

/-- C8: an error raised while processing a node is caught at that node's
visit boundary: the node's `processNodeE` call returns normally with the
error logged together with the node's name, and a container whose own
processing does not fail processes each child of its snapshot
independently — the result at child slot `j` is the processed child
`cs[j]` regardless of failures at any other slot, so one child's failure
never prevents its siblings from being visited. -/
theorem processNode_error_isolation (fails : String → Bool) (n : Node)
    (nm : String) (cs : List Node)
    (hn : fails (nodeName n) = true) (hnm : fails nm = false) :
    processNodeE fails n = (n, [errorLog (nodeName n)])
    ∧ (processNodeE fails (Node.frame nm cs)).1
        = Node.frame nm (cs.map fun c => (processNodeE fails c).1)
    ∧ (∀ j : Nat, (cs.map fun c => (processNodeE fails c).1)[j]?
        = Option.map (fun c => (processNodeE fails c).1) cs[j]?) := by
  refine ⟨?_, ?_, ?_⟩
  · cases n <;> (simp only [nodeName] at hn; simp [processNodeE, nodeName, hn])
  · simp [processNodeE, hnm, processChildrenE_fst]
  · intro j
    exact List.getElem?_map _ cs j

/-- Witness for C8: the error-isolation theorem applied with the oracle
that fails exactly the node named "bad", to a failing leaf and to a
healthy container holding that leaf next to a healthy text node. -/
theorem processNode_error_isolation_witness :
    processNodeE (fun s => s == "bad") (Node.leaf "bad")
      = (Node.leaf "bad", [errorLog (nodeName (Node.leaf "bad"))])
    ∧ (processNodeE (fun s => s == "bad")
        (Node.frame "ok" [Node.leaf "bad", Node.text sampleText])).1
      = Node.frame "ok" ([Node.leaf "bad", Node.text sampleText].map
          fun c => (processNodeE (fun s => s == "bad") c).1)
    ∧ ([Node.leaf "bad", Node.text sampleText].map
        fun c => (processNodeE (fun s => s == "bad") c).1)[1]?
      = Option.map (fun c => (processNodeE (fun s => s == "bad") c).1)
          [Node.leaf "bad", Node.text sampleText][1]? :=
  ⟨(processNode_error_isolation (fun s => s == "bad") (Node.leaf "bad") "ok"
      [Node.leaf "bad", Node.text sampleText] rfl rfl).1,
   (processNode_error_isolation (fun s => s == "bad") (Node.leaf "bad") "ok"
      [Node.leaf "bad", Node.text sampleText] rfl rfl).2.1,
   (processNode_error_isolation (fun s => s == "bad") (Node.leaf "bad") "ok"
      [Node.leaf "bad", Node.text sampleText] rfl rfl).2.2 1⟩

/-! ### C9 -/

/-- C9: on an empty selection the run mutates nothing (the selection comes
back exactly as it went in, no node is processed), emits exactly the
guidance notification — which is neither the failure notification nor the
success one — and closes the plugin session. -/
theorem mainRun_empty_selection :
    ∀ fails : String → Bool,
      mainRun fails []
        = { selectionAfter := []
          , notification := guidanceMessage
          , closed := true }
      ∧ (mainRun fails []).notification ≠ failureMessage
      ∧ (mainRun fails []).notification ≠ successMessage
      ∧ (mainRun fails []).closed = true := by
  intro fails
  refine ⟨rfl, ?_, ?_, rfl⟩
  · intro hcontra
    simp [mainRun, guidanceMessage, failureMessage] at hcontra
  · intro hcontra
    simp [mainRun, guidanceMessage, successMessage] at hcontra

end GhostFrames
